import Mathlib

/-!
Verification development for the atlas symbol classifier.

The repository analyses the symbol table of a statically linked binary and
classifies every symbol by originating source language (C, Cpp, Rust).  This
file gives a shallow embedding of the data model and the operations of the
core: the raw-line parser (`RawSymbol.from_str`, embedding the regex in
`src/tools/atlas/src/sym.rs`), the symbol combination and relatedness checks,
the library indexing and language detection of
`src/tools/atlas/src/detect.rs`, and the aggregation/reporting of
`src/tools/atlas/src/lib.rs` and `src/tools/atlas/src/report.rs`.

Machine integers `u32`/`u64` are modelled as `Nat`: every value handled here
is parsed from at most 8 hexadecimal digits or is a sum of such values, so no
wrap-around behaviour is reachable in the modelled operations.  A Rust panic
is modelled as `none` (or `Except.error`), an `Err` return as `Except.error`
with the corresponding `ErrorKind`.
-/

namespace Atlas

/-- Semantic symbol kinds, from the `SymbolType` enum in
`src/tools/atlas/src/sym.rs`. -/
inductive SymbolType where
  | Absolute
  | BssSection
  | Common
  | DataSection
  | Global
  | IndirectFunction
  | Indirect
  | Debug
  | ReadOnlyDataSection
  | StackUnwindSection
  | UninitializedOrZeroInitialized
  | TextSection
  | Undefined
  | UniqueGlobal
  | TaggedWeak
  | Weak
  | Stabs
  | Unknown
deriving DecidableEq, Repr

/-- Source languages, from the `SymbolLang` enum used by `detect.rs`,
`lib.rs` and `report.rs` (variants pinned by `symbollang_tests`):
`Any` is the wildcard/unspecified value. -/
inductive SymbolLang where
  | Any
  | C
  | Cpp
  | Rust
deriving DecidableEq, Repr

/-- Coarse memory regions, from the `MemoryRegion` enum used by `lib.rs` and
`report.rs` (variants pinned by `memoryregion_tests`). -/
inductive MemoryRegion where
  | Unknown
  | Rom
  | Ram
  | Both
deriving DecidableEq, Repr

/-- Error kinds, from `ErrorKind` in `src/tools/atlas/src/error.rs`.  The old
snapshot's `SymbolParseError` corresponds to `InvalidSymbol`. -/
inductive ErrorKind where
  | InvalidSymbol
  | InvalidEnumStr
  | Nm
  | Io
  | TableFormat
deriving DecidableEq, Repr

/-- One parsed line of nm output: address, size, type tag and name.  This is
the record produced by the line parser (the old snapshot calls it `Symbol`,
the newer one `RawSymbol`; the four fields are identical). -/
structure RawSymbol where
  addr : Nat
  size : Nat
  sym_type : SymbolType
  name : String
deriving DecidableEq, Repr

/-- Value of a hexadecimal digit character. -/
def hexDigitVal (c : Char) : Nat :=
  if c ≤ '9' then c.toNat - '0'.toNat
  else if c ≤ 'F' then c.toNat - 'A'.toNat + 10
  else c.toNat - 'a'.toNat + 10

/-- `[0-9a-fA-F]` character class of the parsing regex. -/
def isHexChar (c : Char) : Bool :=
  ('0' ≤ c && c ≤ '9') || ('a' ≤ c && c ≤ 'f') || ('A' ≤ c && c ≤ 'F')

/-- Numeric value of a list of hexadecimal digits, most significant first
(`u32::from_str_radix(_, 16)` on the 8-digit captures; the result fits in a
`u32` because at most 8 digits are ever passed). -/
def hexListVal (cs : List Char) : Nat :=
  cs.foldl (fun a c => 16 * a + hexDigitVal c) 0

/-- Reads the `([0-9a-fA-F]{8})` capture group: exactly 8 hexadecimal
characters, returning their value and the rest of the input. -/
def takeHex8 (cs : List Char) : Option (Nat × List Char) :=
  let f := cs.take 8
  if f.length = 8 && f.all isHexChar then
    some (hexListVal f, cs.drop 8)
  else
    none

/-- Consumes the `\s+` separator of the parsing regex: at least one
whitespace character (the following token always starts with `\S`, so the
greedy match consumes every consecutive whitespace character). -/
def dropWs1 (cs : List Char) : Option (List Char) :=
  match cs with
  | [] => none
  | c :: rest =>
    if c.isWhitespace then some ((c :: rest).dropWhile Char.isWhitespace) else none

/-- Reads the `(\S)` capture group: a single non-whitespace character. -/
def takeTag (cs : List Char) : Option (Char × List Char) :=
  match cs with
  | [] => none
  | c :: rest => if c.isWhitespace then none else some (c, rest)

/-- Matches the trailing `(\S.*\S)\s*$` of the parsing regex against the
rest of the line and returns the capture: the input minus its trailing
whitespace, which must be at least two characters long, start and end with a
non-whitespace character, and contain no newline in between (`.` does not
match `\n`). -/
def nameCapture (cs : List Char) : Option (List Char) :=
  let t := (cs.reverse.dropWhile Char.isWhitespace).reverse
  match t with
  | [] => none
  | [_] => none
  | c :: rest =>
    if c.isWhitespace then none
    else if (rest.dropLast).all (fun x => x ≠ '\n') then some (c :: rest)
    else none

/-- The type-tag table of `impl FromStr for Symbol`
(`src/tools/atlas/src/sym.rs`): maps the recognized one-character tags to a
`SymbolType`, every other character is rejected. -/
def symTypeOfTag (c : Char) : Option SymbolType :=
  if c = 'A' then some .Absolute
  else if c = 'B' || c = 'b' then some .BssSection
  else if c = 'C' || c = 'c' then some .Common
  else if c = 'D' || c = 'd' then some .DataSection
  else if c = 'G' || c = 'g' then some .Global
  else if c = 'I' then some .Indirect
  else if c = 'i' then some .IndirectFunction
  else if c = 'N' then some .Debug
  else if c = 'n' then some .ReadOnlyDataSection
  else if c = 'p' then some .StackUnwindSection
  else if c = 'R' || c = 'r' then some .ReadOnlyDataSection
  else if c = 'S' || c = 's' then some .UninitializedOrZeroInitialized
  else if c = 'T' || c = 't' then some .TextSection
  else if c = 'U' then some .Undefined
  else if c = 'u' then some .UniqueGlobal
  else if c = 'V' || c = 'v' then some .TaggedWeak
  else if c = 'W' || c = 'w' then some .Weak
  else if c = '-' then some .Stabs
  else if c = '?' then some .Unknown
  else none

/-- The line parser of `impl FromStr for Symbol` in
`src/tools/atlas/src/sym.rs` (the same parsing contract as the newer
`RawSymbol::from_str`): matches the regex
`^\s*([0-9a-fA-F]{8})\s+([0-9a-fA-F]{8})\s+(\S)\s+(\S.*\S)\s*$`
against the line and maps the type tag through the recognized-tag table.
Any failure is an `InvalidSymbol` error. -/
def RawSymbol.from_str (s : String) : Except ErrorKind RawSymbol :=
  let cs := s.data.dropWhile Char.isWhitespace
  match takeHex8 cs with
  | none => .error .InvalidSymbol
  | some (addr, cs) =>
    match dropWs1 cs with
    | none => .error .InvalidSymbol
    | some cs =>
      match takeHex8 cs with
      | none => .error .InvalidSymbol
      | some (size, cs) =>
        match dropWs1 cs with
        | none => .error .InvalidSymbol
        | some cs =>
          match takeTag cs with
          | none => .error .InvalidSymbol
          | some (tag, cs) =>
            match dropWs1 cs with
            | none => .error .InvalidSymbol
            | some cs =>
              match nameCapture cs with
              | none => .error .InvalidSymbol
              | some name =>
                match symTypeOfTag tag with
                | none => .error .InvalidSymbol
                | some ty => .ok ⟨addr, size, ty, ⟨name⟩⟩

/-- A combined symbol record: a mangled-listing parse paired with the
demangled-listing parse of the same entry, plus the detected language.  From
the `Symbol` struct used by `detect.rs`, `lib.rs` and `report.rs` (fields
pinned by `symbol_tests::new`). -/
structure Symbol where
  addr : Nat
  size : Nat
  sym_type : SymbolType
  mangled : String
  demangled : String
  lang : SymbolLang
deriving DecidableEq, Repr

/-- Modelled from the spec: `Symbol::from_rawsymbols_lang` — the parameterized
combine variant — is code of this repository that is not under src (only its
unit tests in `src/src/sym_tests.rs` and its callers in `detect.rs` are).
Per spec §4.3 it validates that the two raw symbols agree on addr, size and
kind (each single mismatch is an `InvalidSymbol` error, pinned by
`from_rawsymbols_invalid_addr` / `_size` / `_type`) and stamps the supplied
language. -/
def Symbol.from_rawsymbols_lang (m d : RawSymbol) (lang : SymbolLang) :
    Except ErrorKind Symbol :=
  if m.addr = d.addr ∧ m.size = d.size ∧ m.sym_type = d.sym_type then
    .ok ⟨m.addr, m.size, m.sym_type, m.name, d.name, lang⟩
  else
    .error .InvalidSymbol

/-- Modelled from the spec: `Symbol::from_rawsymbols` (not under src, see
`Symbol.from_rawsymbols_lang`) combines with `lang = Any` (spec §4.3, pinned
by `symbol_tests::from_rawsymbols`). -/
def Symbol.from_rawsymbols (m d : RawSymbol) : Except ErrorKind Symbol :=
  Symbol.from_rawsymbols_lang m d SymbolLang.Any

/-- The raw-text entry point of `Symbol::from_rawsymbols`: both lines are
first parsed by the line parser (the `TryInto<RawSymbol>` bound used in
`detect.rs`), parse failures propagate as `InvalidSymbol`. -/
def Symbol.from_rawsymbols_str (mangled demangled : String) :
    Except ErrorKind Symbol :=
  match RawSymbol.from_str mangled with
  | .error e => .error e
  | .ok m =>
    match RawSymbol.from_str demangled with
    | .error e => .error e
    | .ok d => Symbol.from_rawsymbols m d

/-- The raw-text entry point of the parameterized combine, as called in
`LangDetector::add_lib` (`detect.rs` line 109). -/
def Symbol.from_rawsymbols_lang_str (mangled demangled : String)
    (lang : SymbolLang) : Except ErrorKind Symbol :=
  match RawSymbol.from_str mangled with
  | .error e => .error e
  | .ok m =>
    match RawSymbol.from_str demangled with
    | .error e => .error e
    | .ok d => Symbol.from_rawsymbols_lang m d lang

/-- Modelled from the spec: `Symbol::related` is code of this repository that
is not under src (only its unit tests in `src/src/sym_tests.rs` and its
caller `LangDetector::detect` are).  Per spec §4.3 it is true iff mangled
name, demangled name, symbol kind and size are all equal — the address is
deliberately excluded (pinned by `symbol_tests::related` /
`unrelated_mangled` / `unrelated_demangled` / `unrelated_type` /
`unrelated_size`). -/
def Symbol.related (a b : Symbol) : Bool :=
  a.mangled = b.mangled && a.demangled = b.demangled
    && a.sym_type = b.sym_type && a.size = b.size

/-- The validation prefix of `Guesser::guess` in `src/tools/atlas/src/sym.rs`
(lines 305-326, the old snapshot): both inputs are converted to parsed
symbols, then the combination is rejected only when the addresses AND the
sizes AND the types all differ (the `&&`-joined mismatch conditions of the
source).  The remainder of `guess` (language heuristics over the accepted
pair) is not modelled here. -/
def Guesser.guess_validation (mangled demangled : String) :
    Except ErrorKind (RawSymbol × RawSymbol) :=
  match RawSymbol.from_str mangled with
  | .error e => .error e
  | .ok m =>
    match RawSymbol.from_str demangled with
    | .error e => .error e
    | .ok d =>
      if m.addr ≠ d.addr ∧ m.size ≠ d.size ∧ m.sym_type ≠ d.sym_type then
        .error .InvalidSymbol
      else
        .ok (m, d)

/-- The name filter applied to library symbols in `LangDetector::add_lib`
(`src/tools/atlas/src/detect.rs` lines 126-145): a symbol whose mangled and
demangled names differ is always kept; one whose names are equal is kept
only if the name starts with a letter or underscore and consists entirely of
letters, digits, underscores and dots. -/
def keepSym (s : Symbol) : Bool :=
  if s.mangled = s.demangled then
    match s.mangled.data with
    | [] => false
    | c :: _ =>
      if ('a' ≤ c && c ≤ 'z') || ('A' ≤ c && c ≤ 'Z') || c = '_' then
        s.mangled.data.all (fun c =>
          ('a' ≤ c && c ≤ 'z') || ('A' ≤ c && c ≤ 'Z') || c = '_' || c = '.'
            || ('0' ≤ c && c ≤ '9'))
      else false
  else true

/-- One indexed library, from the `ParsedLibrary` struct in `detect.rs`:
the library path, its caller-declared language, and the filtered symbols
extracted from its own symbol table. -/
structure ParsedLibrary where
  path : String
  lang : SymbolLang
  syms : List Symbol
deriving DecidableEq, Repr

/-- The classifier state, from the `LangDetector` struct in `detect.rs`. -/
structure LangDetector where
  default_lang : SymbolLang
  default_mangled_lang : SymbolLang
  libs : List ParsedLibrary
deriving DecidableEq, Repr

/-- `LangDetector::new` (`detect.rs`): empty library list. -/
def LangDetector.new (default_lang default_mangled_lang : SymbolLang) :
    LangDetector :=
  ⟨default_lang, default_mangled_lang, []⟩

/-- The per-line-pair loop of `LangDetector::add_lib` (`detect.rs` lines
108-146): each pair of a mangled and a demangled line is combined with
`Symbol::from_rawsymbols_lang(_, _, SymbolLang::Rust)` — the language
argument is the literal `SymbolLang::Rust` in the source, not the library's
declared language; pairs that fail to combine are skipped, and combined
symbols pass the `keepSym` name filter. -/
def addLibSyms (pairs : List (String × String)) : List Symbol :=
  match pairs with
  | [] => []
  | (mangled, demangled) :: rest =>
    match Symbol.from_rawsymbols_lang_str mangled demangled SymbolLang.Rust with
    | .error _ => addLibSyms rest
    | .ok s =>
      if keepSym s then s :: addLibSyms rest else addLibSyms rest

/-- `LangDetector::add_lib` (`detect.rs` lines 66-151), with the subprocess
invocation abstracted away: the two listings of the library are supplied as
line sequences (paired by position, `zip` in the source) and the resulting
`ParsedLibrary` records the library's declared language alongside the
filtered symbols. -/
def LangDetector.add_lib (d : LangDetector) (lang : SymbolLang)
    (path : String) (mangled_lines demangled_lines : List String) :
    LangDetector :=
  { d with
    libs := d.libs ++ [⟨path, lang, addLibSyms (mangled_lines.zip demangled_lines)⟩] }

/-- The library scan of `LangDetector::detect` (`detect.rs` lines 173-178):
returns the declared language of the first library containing any symbol
related to `sym`, stopping at the first match. -/
def detectScan (libs : List ParsedLibrary) (sym : Symbol) : Option SymbolLang :=
  match libs with
  | [] => none
  | lib :: rest =>
    if lib.syms.any (fun lib_sym => sym.related lib_sym) then some lib.lang
    else detectScan rest sym

/-- `LangDetector::detect` (`detect.rs` lines 166-188): combine the two raw
lines into a symbol, scan the libraries in order and stamp the first match's
declared language; if no library matches, stamp `default_lang` when the
mangled and demangled names are equal and `default_mangled_lang`
otherwise. -/
def LangDetector.detect (d : LangDetector) (mangled demangled : String) :
    Except ErrorKind Symbol :=
  match Symbol.from_rawsymbols_str mangled demangled with
  | .error e => .error e
  | .ok sym =>
    match detectScan d.libs sym with
    | some lang => .ok { sym with lang := lang }
    | none =>
      if sym.mangled = sym.demangled then
        .ok { sym with lang := d.default_lang }
      else
        .ok { sym with lang := d.default_mangled_lang }

/-- Modelled from the spec: the `SymbolType::mem_region` implementation is
code of this repository that is not under src (only its unit tests in
`src/src/sym_tests.rs` and its callers in `lib.rs` and `report.rs` are).
The mapping follows the repository's own unit tests where they pin a variant
(`symboltype_tests::memory_region`: BssSection to Ram; TextSection,
ReadOnlyDataSection and Weak to Rom; `symboltype_tests::illegal_memory_region`:
Global panics) and the spec (section 4.2) for the variants the tests leave
open (DataSection to Ram, TaggedWeak to Rom, every remaining kind panics).
Note that the tests pin ReadOnlyDataSection to Rom even though the spec text
says Ram.  The panic on unresolved kinds is modelled as `none`. -/
def SymbolType.mem_region : SymbolType → Option MemoryRegion
  | .TextSection => some .Rom
  | .Weak => some .Rom
  | .TaggedWeak => some .Rom
  | .ReadOnlyDataSection => some .Rom
  | .BssSection => some .Ram
  | .DataSection => some .Ram
  | _ => none

/-- ROM and RAM usage of one language, from the `TotalMem` struct in
`src/tools/atlas/src/report.rs` (sizes in bytes, `ByteSize` wraps a u64). -/
structure TotalMem where
  rom : Nat
  ram : Nat
deriving DecidableEq, Repr

/-- `impl Add for TotalMem` (`report.rs`): component-wise addition. -/
instance : Add TotalMem where
  add a b := ⟨a.rom + b.rom, a.ram + b.ram⟩

/-- Per-language memory summary, from the `LangReport` struct in
`report.rs`. -/
structure LangReport where
  c : TotalMem
  cpp : TotalMem
  rust : TotalMem
deriving DecidableEq, Repr

/-- `LangReport::size` (`report.rs` lines 69-82): selects the language's
totals (summing all three for `Any`), then the requested region (summing
ROM and RAM for `Both`); any other region — i.e. `Unknown` — hits the
wildcard arm `panic!("Invalid memory type!")`, modelled as `none`. -/
def LangReport.size (r : LangReport) (lang : SymbolLang)
    (mem_region : MemoryRegion) : Option Nat :=
  let mem := match lang with
    | .C => r.c
    | .Cpp => r.cpp
    | .Rust => r.rust
    | .Any => r.c + r.cpp + r.rust
  match mem_region with
  | .Rom => some mem.rom
  | .Ram => some mem.ram
  | .Both => some (mem.rom + mem.ram)
  | .Unknown => none

/-- `LangReport::size_pct` (`report.rs` lines 98-103) computes
`100 * size(lang, region) / size(Any, region)` in floating point.  The
floating-point quotient itself is not modelled; the result here is the pair
(numerator size, denominator sum) fed into the division, which preserves
exactly the panic behaviour inherited from the two `size` calls. -/
def LangReport.size_pct (r : LangReport) (lang : SymbolLang)
    (mem_region : MemoryRegion) : Option (Nat × Nat) := do
  let sum ← r.size SymbolLang.Any mem_region
  let size ← r.size lang mem_region
  some (size, sum)

/-- `LangReport::iter_region` (`report.rs` lines 153-183): builds the
(language, size, percentage) triple for each of C, Cpp and Rust and sorts
them by size, largest first (percentages as in `LangReport.size_pct`).
Each triple calls `size` and `size_pct`, so the panic on an `Unknown`
region argument is inherited. -/
def LangReport.iter_region (r : LangReport) (mem_region : MemoryRegion) :
    Option (List (SymbolLang × Nat × (Nat × Nat))) := do
  let cSize ← r.size SymbolLang.C mem_region
  let cPct ← r.size_pct SymbolLang.C mem_region
  let cppSize ← r.size SymbolLang.Cpp mem_region
  let cppPct ← r.size_pct SymbolLang.Cpp mem_region
  let rustSize ← r.size SymbolLang.Rust mem_region
  let rustPct ← r.size_pct SymbolLang.Rust mem_region
  let data := [(SymbolLang.C, cSize, cPct), (SymbolLang.Cpp, cppSize, cppPct),
    (SymbolLang.Rust, rustSize, rustPct)]
  some (data.mergeSort (fun a b => b.2.1 ≤ a.2.1))

/-- The fold loop underlying `tallyLangRegion`, with the running
accumulator made explicit (the `fold(0, |acc, s| acc + s.size)` of the
source, left to right). -/
def tallyGo (lang : SymbolLang) (region : MemoryRegion) (acc : Nat) :
    List Symbol → Except Unit Nat
  | [] => .ok acc
  | s :: rest =>
    if s.lang = lang then
      match s.sym_type.mem_region with
      | none => .error ()
      | some reg =>
        if reg = region then tallyGo lang region (acc + s.size) rest
        else tallyGo lang region acc rest
    else
      tallyGo lang region acc rest

/-- One filtered fold of `Atlas::report_lang` (`src/tools/atlas/src/lib.rs`
lines 178-218): sums the sizes of the symbols whose `lang` equals the given
language and whose `mem_region()` equals the given region.  The region
classifier is called inside the filter on every symbol that passes the
language filter, so an unresolved region there panics — modelled as
`Except.error ()`. -/
def tallyLangRegion (syms : List Symbol) (lang : SymbolLang)
    (region : MemoryRegion) : Except Unit Nat :=
  tallyGo lang region 0 syms

/-- `Atlas::report_lang` (`lib.rs` lines 178-218): builds the `LangReport`
from the six filtered folds (C/Cpp/Rust by Rom/Ram). -/
def reportLang (syms : List Symbol) : Except Unit LangReport := do
  let cRom ← tallyLangRegion syms SymbolLang.C MemoryRegion.Rom
  let cRam ← tallyLangRegion syms SymbolLang.C MemoryRegion.Ram
  let cppRom ← tallyLangRegion syms SymbolLang.Cpp MemoryRegion.Rom
  let cppRam ← tallyLangRegion syms SymbolLang.Cpp MemoryRegion.Ram
  let rustRom ← tallyLangRegion syms SymbolLang.Rust MemoryRegion.Rom
  let rustRam ← tallyLangRegion syms SymbolLang.Rust MemoryRegion.Ram
  .ok ⟨⟨cRom, cRam⟩, ⟨cppRom, cppRam⟩, ⟨rustRom, rustRam⟩⟩

/-- The claim-side description of an identifier-shaped name (spec §3): the
first character is a letter or underscore and every character is a letter,
digit, underscore or dot.  Stated independently of `keepSym` so the two can
be compared. -/
def identShapedSpec (name : String) : Bool :=
  match name.data with
  | [] => false
  | c :: _ =>
    (c.isAlpha || c = '_')
      && name.data.all (fun x => x.isAlpha || x.isDigit || x = '_' || x = '.')

example : RawSymbol.from_str "00008700 00000064 T net_if_up" =
    .ok ⟨0x00008700, 0x00000064, .TextSection, "net_if_up"⟩ := rfl

example : RawSymbol.from_str "   00008700 00000064 T net_if_up    " =
    .ok ⟨0x00008700, 0x00000064, .TextSection, "net_if_up"⟩ := rfl

example : RawSymbol.from_str "" = .error .InvalidSymbol := rfl

example : RawSymbol.from_str "00008700 00000064 Tt net_if_up" =
    .error .InvalidSymbol := rfl

example : RawSymbol.from_str "00008700 00000064 X net_if_up" =
    .error .InvalidSymbol := rfl

example : RawSymbol.from_str "00008700 00000064 T" = .error .InvalidSymbol := rfl

example : Symbol.from_rawsymbols_str "00008700 00000064 T mangled_name"
    "00008700 00000064 T demangled_name" =
    .ok ⟨0x00008700, 0x00000064, .TextSection, "mangled_name",
      "demangled_name", .Any⟩ := rfl

example : Symbol.from_rawsymbols_str "00008700 00000064 T mangled_name"
    "00000000 00000064 T demangled_name" = .error .InvalidSymbol := rfl

example : Symbol.from_rawsymbols_str "00008700 00000064 T mangled_name"
    "00008700 00000000 T demangled_name" = .error .InvalidSymbol := rfl

example : Symbol.from_rawsymbols_str "00008700 00000064 T mangled_name"
    "00008700 00000064 a demangled_name" = .error .InvalidSymbol := rfl

example :
    (LangDetector.new .C .Cpp).detect "0000810e 00000024 t triple_mult"
      "0000810e 00000024 t triple_mult" =
    .ok ⟨0x0000810e, 0x00000024, .TextSection, "triple_mult", "triple_mult",
      .C⟩ := rfl

/-- C4: The memory-region classification is a fixed total mapping on
SymbolType: TextSection, Weak and TaggedWeak map to Rom, and so does
ReadOnlyDataSection (as pinned by the repository's unit test
`symboltype_tests::memory_region`, which corrects the claim's assertion that
ReadOnlyDataSection maps to Ram); BssSection and DataSection map to Ram; and
every other kind yields the unresolved/fatal outcome (`none`, a panic in the
source) rather than a region. -/
theorem mem_region_mapping :
    (∀ t : SymbolType, t.mem_region = some MemoryRegion.Rom ↔
      (t = .TextSection ∨ t = .Weak ∨ t = .TaggedWeak
        ∨ t = .ReadOnlyDataSection)) ∧
    (∀ t : SymbolType, t.mem_region = some MemoryRegion.Ram ↔
      (t = .BssSection ∨ t = .DataSection)) ∧
    (∀ t : SymbolType, t.mem_region = none ↔
      (t = .Absolute ∨ t = .Common ∨ t = .Global ∨ t = .Indirect
        ∨ t = .IndirectFunction ∨ t = .Debug ∨ t = .StackUnwindSection
        ∨ t = .UninitializedOrZeroInitialized ∨ t = .Undefined
        ∨ t = .UniqueGlobal ∨ t = .Stabs ∨ t = .Unknown)) := by
  refine ⟨?_, ?_, ?_⟩ <;> intro t <;> cases t <;> simp [SymbolType.mem_region]

/-- C4 (counterexample): contrary to the claim, ReadOnlyDataSection is not
classified as Ram — the repository's unit test pins it to Rom. -/
theorem mem_region_rodata_not_ram :
    SymbolType.mem_region SymbolType.ReadOnlyDataSection
      ≠ some MemoryRegion.Ram := by
  simp [SymbolType.mem_region]

/-- C6: two Symbols are related exactly when their mangled name, demangled
name, symbol kind and size are all equal — the address plays no role.  The
conjuncts after the equivalence replay the repository's unit tests
`symbol_tests::related` (equal except for the address: related) and
`unrelated_mangled` (differing mangled name: unrelated). -/
theorem related_iff :
    (∀ a b : Symbol, a.related b = true ↔
      (a.mangled = b.mangled ∧ a.demangled = b.demangled
        ∧ a.sym_type = b.sym_type ∧ a.size = b.size)) ∧
    (Symbol.related
      ⟨0x00008700, 0x64, .TextSection, "mangled_name", "demangled_name", .Any⟩
      ⟨0, 0x64, .TextSection, "mangled_name", "demangled_name", .Rust⟩
        = true) ∧
    (Symbol.related
      ⟨0x00008700, 0x64, .TextSection, "mangled_name", "demangled_name", .Any⟩
      ⟨0, 0x64, .TextSection, "other_mangled_name", "demangled_name", .Rust⟩
        = false) := by
  refine ⟨fun a b => ?_, by decide, by decide⟩
  simp [Symbol.related, and_assoc]

/-- C7 (failing input): the line parser rejects a line whose name field is a
single character, because the name capture group of the source regex,
`(\S.*\S)`, only matches names of at least two characters.  The repository's
own unit test `rawsymbol_tests::fromstr_single_char_as_name` requires this
very line to parse successfully with name "s". -/
theorem from_str_rejects_single_char_name :
    RawSymbol.from_str "20001370 00000010 b s" =
      .error ErrorKind.InvalidSymbol := rfl

/-- C3 (failing input): the validation in `Guesser::guess` joins the three
mismatch conditions with `&&`, so a pair of lines agreeing on size and kind
but differing in address is accepted, while the combine-agreement contract
(and the repository's unit test `symbol_tests::from_rawsymbols_invalid_addr`)
requires any single mismatch to fail with `InvalidSymbol` — as the combine
modelled from the spec indeed does on the same input. -/
theorem guess_validation_accepts_addr_mismatch :
    Guesser.guess_validation "00008700 00000064 T mangled_name"
        "00000000 00000064 T demangled_name" =
      .ok (⟨0x00008700, 0x64, .TextSection, "mangled_name"⟩,
        ⟨0, 0x64, .TextSection, "demangled_name"⟩) ∧
    Symbol.from_rawsymbols_str "00008700 00000064 T mangled_name"
        "00000000 00000064 T demangled_name" =
      .error ErrorKind.InvalidSymbol := ⟨rfl, rfl⟩

/-- C10: `LangReport::size` is only defined over the Rom, Ram and Both
regions; for the `Unknown` region it hits the wildcard match arm and panics
("Invalid memory type!", modelled as `none`) for every language, and
`size_pct` and `iter_region` inherit that panic. -/
theorem lang_report_unknown_region_panics (r : LangReport) (lang : SymbolLang) :
    r.size lang MemoryRegion.Unknown = none ∧
    r.size_pct lang MemoryRegion.Unknown = none ∧
    r.iter_region MemoryRegion.Unknown = none :=
  ⟨rfl, rfl, rfl⟩

theorem lower_range_eq (c : Char) : (('a' ≤ c && c ≤ 'z') : Bool) = c.isLower := by
  simp [Char.isLower, Char.le_def, ge_iff_le]

theorem upper_range_eq (c : Char) : (('A' ≤ c && c ≤ 'Z') : Bool) = c.isUpper := by
  simp [Char.isUpper, Char.le_def, ge_iff_le]

theorem digit_range_eq (c : Char) : (('0' ≤ c && c ≤ '9') : Bool) = c.isDigit := by
  simp [Char.isDigit, Char.le_def, ge_iff_le]

/-- C9: the name filter of `add_lib` keeps an entry iff its mangled and
demangled names differ, or the two names are equal and the name is
identifier-shaped in the claim's sense (first character a letter or
underscore, every character a letter, digit, underscore or dot); in
particular the equal-name linker label ".L__unnamed_1" is dropped. -/
theorem keep_sym_iff :
    (∀ s : Symbol, keepSym s = true ↔
      (s.mangled ≠ s.demangled ∨
        (s.mangled = s.demangled ∧ identShapedSpec s.mangled = true))) ∧
    keepSym ⟨0, 0, .BssSection, ".L__unnamed_1", ".L__unnamed_1", .Rust⟩
      = false := by
  refine ⟨fun s => ?_, by decide⟩
  by_cases h : s.mangled = s.demangled
  · simp only [keepSym, identShapedSpec, h, if_pos, if_true, ne_eq,
      not_true_eq_false, false_or, true_and]
    cases hd : s.demangled.data with
    | nil => simp [h, hd]
    | cons c rest =>
      simp only [lower_range_eq, upper_range_eq, digit_range_eq,
        Char.isAlpha]
      cases hu : c.isUpper <;> cases hl : c.isLower <;>
        cases he : (c = '_' : Bool) <;>
          simp [hu, hl, he, List.all_eq_true, Bool.or_comm, Bool.or_assoc,
            Bool.or_left_comm]
  · simp [keepSym, h]

theorem detectScan_eq_of_find (libs : List ParsedLibrary) (sym : Symbol)
    (lib : ParsedLibrary)
    (h : libs.find? (fun l => l.syms.any (fun ls => sym.related ls)) = some lib) :
    detectScan libs sym = some lib.lang := by
  induction libs with
  | nil => simp at h
  | cons hd tl ih =>
    by_cases hp : hd.syms.any (fun ls => sym.related ls) = true
    · simp only [List.find?, hp] at h
      cases h
      simp [detectScan, hp]
    · simp only [List.find?, hp] at h
      simp only [detectScan, hp, if_false]
      exact ih h

theorem detectScan_append (libs more : List ParsedLibrary) (sym : Symbol)
    (l : SymbolLang) (h : detectScan libs sym = some l) :
    detectScan (libs ++ more) sym = some l := by
  induction libs with
  | nil => simp [detectScan] at h
  | cons hd tl ih =>
    by_cases hp : hd.syms.any (fun ls => sym.related ls) = true
    · simp [detectScan, hp] at h ⊢
      exact h
    · simp only [List.cons_append, detectScan, hp, if_false] at h ⊢
      exact ih h

theorem detectScan_none (libs : List ParsedLibrary) (sym : Symbol)
    (h : ∀ lib ∈ libs, lib.syms.any (fun ls => sym.related ls) = false) :
    detectScan libs sym = none := by
  induction libs with
  | nil => rfl
  | cons hd tl ih =>
    have hhd := h hd (List.mem_cons_self _ _)
    simp only [detectScan, hhd, if_false, Bool.false_eq_true]
    exact ih fun lib hl => h lib (List.mem_cons_of_mem _ hl)

/-- C1: if the raw line pair combines into `sym` and the library sequence
contains a library with a symbol related to `sym`, then `detect` returns
`sym` stamped with the declared language of the first such library in the
caller-supplied order; moreover any libraries placed after that first match
are never consulted: appending arbitrary further libraries leaves the result
unchanged. -/
theorem detect_first_match_wins (d : LangDetector) (mangled demangled : String)
    (sym : Symbol) (lib : ParsedLibrary)
    (hsym : Symbol.from_rawsymbols_str mangled demangled = .ok sym)
    (hfind : d.libs.find? (fun l => l.syms.any (fun ls => sym.related ls))
      = some lib) :
    d.detect mangled demangled = .ok { sym with lang := lib.lang } ∧
    ∀ more : List ParsedLibrary,
      LangDetector.detect
        ⟨d.default_lang, d.default_mangled_lang, d.libs ++ more⟩
        mangled demangled = .ok { sym with lang := lib.lang } := by
  have hscan := detectScan_eq_of_find d.libs sym lib hfind
  constructor
  · simp [LangDetector.detect, hsym, hscan]
  · intro more
    have hmore := detectScan_append d.libs more sym lib.lang hscan
    simp [LangDetector.detect, hsym, hmore]

/-- C1 (witness): two libraries both contain a symbol related to the query;
the result carries the declared language (Cpp) of the library passed
first. -/
theorem detect_first_match_wins_witness :
    (LangDetector.mk SymbolLang.C SymbolLang.Cpp
        [⟨"libone.a", SymbolLang.Cpp,
          [⟨0, 0x64, .TextSection, "m_name", "d_name", .Rust⟩]⟩,
         ⟨"libtwo.a", SymbolLang.Rust,
          [⟨0, 0x64, .TextSection, "m_name", "d_name", .Rust⟩]⟩]).detect
      "00008700 00000064 T m_name" "00008700 00000064 T d_name"
      = .ok ⟨0x00008700, 0x64, .TextSection, "m_name", "d_name",
          SymbolLang.Cpp⟩ :=
  (detect_first_match_wins
    (LangDetector.mk SymbolLang.C SymbolLang.Cpp
      [⟨"libone.a", SymbolLang.Cpp,
        [⟨0, 0x64, .TextSection, "m_name", "d_name", .Rust⟩]⟩,
       ⟨"libtwo.a", SymbolLang.Rust,
        [⟨0, 0x64, .TextSection, "m_name", "d_name", .Rust⟩]⟩])
    "00008700 00000064 T m_name" "00008700 00000064 T d_name"
    ⟨0x00008700, 0x64, .TextSection, "m_name", "d_name", SymbolLang.Any⟩
    ⟨"libone.a", SymbolLang.Cpp,
      [⟨0, 0x64, .TextSection, "m_name", "d_name", .Rust⟩]⟩
    rfl rfl).1

/-- C2: when no library index contains a related symbol (in particular when
the library sequence is empty), `detect` falls back to `default_lang` for a
symbol whose mangled and demangled names are equal and to
`default_mangled_lang` otherwise. -/
theorem detect_fallback (d : LangDetector) (mangled demangled : String)
    (sym : Symbol)
    (hsym : Symbol.from_rawsymbols_str mangled demangled = .ok sym)
    (hnone : ∀ lib ∈ d.libs, lib.syms.any (fun ls => sym.related ls) = false) :
    d.detect mangled demangled = .ok { sym with
      lang := if sym.mangled = sym.demangled then d.default_lang
        else d.default_mangled_lang } := by
  have hscan := detectScan_none d.libs sym hnone
  by_cases h : sym.mangled = sym.demangled <;>
    simp [LangDetector.detect, hsym, hscan, h]

/-- C2 (witness): with an empty library sequence, equal mangled and
demangled names fall back to `default_lang` (C here). -/
theorem detect_fallback_witness :
    (LangDetector.new SymbolLang.C SymbolLang.Cpp).detect
      "00008700 00000064 T net_if_up" "00008700 00000064 T net_if_up"
      = .ok ⟨0x00008700, 0x64, .TextSection, "net_if_up", "net_if_up",
          SymbolLang.C⟩ := by
  have h := detect_fallback (LangDetector.new SymbolLang.C SymbolLang.Cpp)
    "00008700 00000064 T net_if_up" "00008700 00000064 T net_if_up"
    ⟨0x00008700, 0x64, .TextSection, "net_if_up", "net_if_up", SymbolLang.Any⟩
    rfl (by intro lib hl; simp [LangDetector.new] at hl)
  simpa using h

theorem except_bind_ok {ε α β : Type} (x : α) (f : α → Except ε β) :
    (Except.ok x : Except ε α) >>= f = f x := rfl

theorem except_bind_error {ε α β : Type} (e : ε) (f : α → Except ε β) :
    (Except.error e : Except ε α) >>= f = (Except.error e : Except ε β) := rfl

theorem from_rawsymbols_lang_str_lang (mangled demangled : String)
    (lang : SymbolLang) (s : Symbol)
    (h : Symbol.from_rawsymbols_lang_str mangled demangled lang = .ok s) :
    s.lang = lang := by
  unfold Symbol.from_rawsymbols_lang_str at h
  cases hm : RawSymbol.from_str mangled with
  | error e => simp [hm] at h
  | ok m =>
    cases hd : RawSymbol.from_str demangled with
    | error e => simp [hm, hd] at h
    | ok d =>
      simp only [hm, hd] at h
      unfold Symbol.from_rawsymbols_lang at h
      by_cases hc : m.addr = d.addr ∧ m.size = d.size ∧ m.sym_type = d.sym_type
      · simp only [hc, if_true] at h
        cases h
        rfl
      · simp [hc] at h

/-- C8 (amended): every symbol stored in a library index by `add_lib` has
its `lang` field equal to `SymbolLang.Rust` — the combine call in the source
hardcodes `SymbolLang::Rust` rather than using the library's declared
language (which is kept on the `ParsedLibrary` itself and only applied to
matched symbols at detect time). -/
theorem add_lib_syms_lang_rust (pairs : List (String × String)) (s : Symbol)
    (hs : s ∈ addLibSyms pairs) : s.lang = SymbolLang.Rust := by
  induction pairs with
  | nil => simp [addLibSyms] at hs
  | cons p rest ih =>
    obtain ⟨m, dm⟩ := p
    cases hcomb : Symbol.from_rawsymbols_lang_str m dm SymbolLang.Rust with
    | error e =>
      simp only [addLibSyms, hcomb] at hs
      exact ih hs
    | ok s0 =>
      simp only [addLibSyms, hcomb] at hs
      by_cases hk : keepSym s0 = true
      · simp only [hk, if_true, List.mem_cons] at hs
        cases hs with
        | inl heq =>
          subst heq
          exact from_rawsymbols_lang_str_lang m dm SymbolLang.Rust _ hcomb
        | inr hmem => exact ih hmem
      · simp only [hk, if_false, Bool.false_eq_true] at hs
        exact ih hs

/-- C8 (witness): the single no-mangle entry of a one-line library is kept
and carries `SymbolLang.Rust`. -/
theorem add_lib_syms_lang_rust_witness :
    addLibSyms [("00008700 00000064 T foo", "00008700 00000064 T foo")]
      = [⟨0x00008700, 0x64, .TextSection, "foo", "foo", SymbolLang.Rust⟩] ∧
    (⟨0x00008700, 0x64, .TextSection, "foo", "foo",
      SymbolLang.Rust⟩ : Symbol).lang = SymbolLang.Rust :=
  ⟨rfl, add_lib_syms_lang_rust
    [("00008700 00000064 T foo", "00008700 00000064 T foo")] _ (by decide)⟩

/-- C8 (counterexample): a library declared as C stores its symbols stamped
`SymbolLang.Rust`, so the stored language is not the declared language. -/
theorem add_lib_not_declared_lang :
    ((LangDetector.new SymbolLang.C SymbolLang.Cpp).add_lib SymbolLang.C
        "libc_lib.a" ["00008700 00000064 T foo"]
        ["00008700 00000064 T foo"]).libs.all
      (fun lib => lib.syms.all (fun s => s.lang == lib.lang)) = false := rfl

theorem tallyGo_error_iff (lang : SymbolLang) (region : MemoryRegion)
    (acc : Nat) (syms : List Symbol) :
    tallyGo lang region acc syms = .error () ↔
      ∃ s ∈ syms, s.lang = lang ∧ s.sym_type.mem_region = none := by
  induction syms generalizing acc with
  | nil => simp [tallyGo]
  | cons s rest ih =>
    by_cases hl : s.lang = lang
    · cases hm : s.sym_type.mem_region with
      | none => simp [tallyGo, hl, hm]
      | some reg =>
        by_cases hr : reg = region <;>
          simp [tallyGo, hl, hm, hr, ih]
    · simp [tallyGo, hl, ih]

theorem exists_ok_of_ne_error {α : Type} (x : Except Unit α)
    (h : ¬ x = .error ()) : ∃ v, x = .ok v := by
  cases x with
  | error e => cases e; exact absurd rfl h
  | ok v => exact ⟨v, rfl⟩

/-- C5 (amended): `report_lang` does not exclude symbols with an unresolved
memory region — it calls the region classifier inside its filters, so the
aggregation panics exactly when the collection contains a symbol whose
language is one of the three reported languages (i.e. not the wildcard
`Any`) and whose kind has no resolved region. -/
theorem report_lang_error_iff (syms : List Symbol) :
    reportLang syms = .error () ↔
      ∃ s ∈ syms, s.lang ≠ SymbolLang.Any ∧ s.sym_type.mem_region = none := by
  constructor
  · intro h
    by_contra hn
    push_neg at hn
    have hne : ∀ lang, lang ≠ SymbolLang.Any →
        ∀ region, ¬ tallyLangRegion syms lang region = .error () := by
      intro lang hlang region hc
      obtain ⟨s, hs, hl, hm⟩ := (tallyGo_error_iff lang region 0 syms).mp hc
      exact hn s hs (hl ▸ hlang) hm
    obtain ⟨v1, h1⟩ := exists_ok_of_ne_error _
      (hne SymbolLang.C (by decide) MemoryRegion.Rom)
    obtain ⟨v2, h2⟩ := exists_ok_of_ne_error _
      (hne SymbolLang.C (by decide) MemoryRegion.Ram)
    obtain ⟨v3, h3⟩ := exists_ok_of_ne_error _
      (hne SymbolLang.Cpp (by decide) MemoryRegion.Rom)
    obtain ⟨v4, h4⟩ := exists_ok_of_ne_error _
      (hne SymbolLang.Cpp (by decide) MemoryRegion.Ram)
    obtain ⟨v5, h5⟩ := exists_ok_of_ne_error _
      (hne SymbolLang.Rust (by decide) MemoryRegion.Rom)
    obtain ⟨v6, h6⟩ := exists_ok_of_ne_error _
      (hne SymbolLang.Rust (by decide) MemoryRegion.Ram)
    simp [reportLang, h1, h2, h3, h4, h5, h6, except_bind_ok] at h
  · rintro ⟨s, hs, hlang, hmem⟩
    cases h1 : tallyLangRegion syms SymbolLang.C MemoryRegion.Rom with
    | error e => cases e; simp [reportLang, h1, except_bind_error]
    | ok v1 =>
      cases h2 : tallyLangRegion syms SymbolLang.C MemoryRegion.Ram with
      | error e => cases e; simp [reportLang, h1, h2, except_bind_ok, except_bind_error]
      | ok v2 =>
        cases h3 : tallyLangRegion syms SymbolLang.Cpp MemoryRegion.Rom with
        | error e => cases e; simp [reportLang, h1, h2, h3, except_bind_ok, except_bind_error]
        | ok v3 =>
          cases h4 : tallyLangRegion syms SymbolLang.Cpp MemoryRegion.Ram with
          | error e => cases e; simp [reportLang, h1, h2, h3, h4, except_bind_ok, except_bind_error]
          | ok v4 =>
            cases h5 : tallyLangRegion syms SymbolLang.Rust MemoryRegion.Rom with
            | error e => cases e; simp [reportLang, h1, h2, h3, h4, h5, except_bind_ok, except_bind_error]
            | ok v5 =>
              cases h6 : tallyLangRegion syms SymbolLang.Rust MemoryRegion.Ram with
              | error e => cases e; simp [reportLang, h1, h2, h3, h4, h5, h6, except_bind_ok, except_bind_error]
              | ok v6 =>
                exfalso
                cases hsl : s.lang with
                | Any => exact hlang hsl
                | C =>
                  have := (tallyGo_error_iff SymbolLang.C MemoryRegion.Rom 0
                    syms).mpr ⟨s, hs, hsl, hmem⟩
                  unfold tallyLangRegion at h1
                  rw [this] at h1
                  exact Except.noConfusion h1
                | Cpp =>
                  have := (tallyGo_error_iff SymbolLang.Cpp MemoryRegion.Rom 0
                    syms).mpr ⟨s, hs, hsl, hmem⟩
                  unfold tallyLangRegion at h3
                  rw [this] at h3
                  exact Except.noConfusion h3
                | Rust =>
                  have := (tallyGo_error_iff SymbolLang.Rust MemoryRegion.Rom 0
                    syms).mpr ⟨s, hs, hsl, hmem⟩
                  unfold tallyLangRegion at h5
                  rw [this] at h5
                  exact Except.noConfusion h5

/-- C5 (counterexample): a collection holding one C-language symbol of kind
Global — a collection `detect` can actually produce — makes `report_lang`
panic instead of excluding the symbol from the totals. -/
theorem report_lang_panics_on_unresolved :
    reportLang [⟨0, 4, .Global, "g_sym", "g_sym", SymbolLang.C⟩]
      = .error () := rfl

end Atlas
